import Mathlib

/-!
Shallow embedding of the analysis-and-rendering core of the `visualiser`
repository (audio feature extractor, motion-heat buffer, particle pools),
together with theorems settling the specification claims.

Numeric values of the JavaScript source (IEEE doubles) are embedded as
rationals `ℚ`; byte buffers (`Uint8Array` / `Uint8ClampedArray`) as lists of
naturals bounded by 255.
-/

namespace Visualiser

/-! ## AudioAnalyzer: adaptive gain normalization (`_normalize`,
`src/renderer/audioAnalyzer.js` lines 391-416) -/

/-- Embeds `Math.max(0, Math.min(1, x))`. -/
def clamp01 (x : ℚ) : ℚ := max 0 (min 1 x)

/-- The persistent auto-gain state of the analyzer: `minEnergy` / `maxEnergy`
envelope (initially `Infinity` / `-Infinity`, modelled by `none`), the slow
decay factor (default `0.999`) and the global enable flag. -/
structure NormState where
  minmax : Option (ℚ × ℚ)
  rangeDecayFactor : ℚ
  adaptiveGain : Bool
deriving DecidableEq

/-- Fresh analyzer auto-gain state (constructor lines 29-32). -/
def NormState.init : NormState :=
  { minmax := none, rangeDecayFactor := 999/1000, adaptiveGain := true }

/-- The auto-gain state after `setAdaptiveGain(false)`: envelope reset to
`Infinity` / `-Infinity`, adaptive gain off (lines 446-454). -/
def NormState.disabled : NormState :=
  { minmax := none, rangeDecayFactor := 999/1000, adaptiveGain := false }

/-- Min/max envelope update of `_normalize`: absorb the new value
(`Math.min` / `Math.max`; starting from `Infinity` / `-Infinity` the first
value becomes both bounds) and decay both bounds toward their midpoint by
`rangeDecayFactor`. -/
def envUpdate (st : NormState) (value : ℚ) : ℚ × ℚ :=
  let m0 := match st.minmax with | none => value | some (m, _) => min m value
  let M0 := match st.minmax with | none => value | some (_, M) => max M value
  let middle := (m0 + M0) / 2
  (m0 * st.rangeDecayFactor + middle * (1 - st.rangeDecayFactor),
   M0 * st.rangeDecayFactor + middle * (1 - st.rangeDecayFactor))

/-- Embeds `_normalize(value)`: with adaptive gain off, clamp the raw value to
`[0,1]`; otherwise update the envelope, and either return the raw value
unchanged (envelope range `< 0.001`) or the clamped affine rescaling. -/
def normalizeStep (st : NormState) (value : ℚ) : ℚ × NormState :=
  if st.adaptiveGain = false then
    (clamp01 value, st)
  else
    let mM := envUpdate st value
    let st' : NormState := { st with minmax := some mM }
    if mM.2 - mM.1 < 1/1000 then
      (value, st')
    else
      (clamp01 ((value - mM.1) / (mM.2 - mM.1)), st')

/-- Feed a whole sequence of raw values through `_normalize`, threading the
mutable envelope state, and collect the outputs. -/
def normalizeSeq (st : NormState) : List ℚ → List ℚ × NormState
  | [] => ([], st)
  | v :: vs =>
    let rst := normalizeStep st v
    let rest := normalizeSeq rst.2 vs
    (rst.1 :: rest.1, rest.2)

/-! ## AudioAnalyzer: exponential band smoothing
(`smoothed = smoothed*k + raw*(1-k)`, lines 245-246, and
`setSmoothingFactor`, lines 438-440) -/

/-- One smoothing update as written in `getBass` / `getMid` / `getTreble` /
`getAverageFrequency`: `previous * k + raw * (1 - k)`. -/
def smoothStep (k raw s : ℚ) : ℚ := s * k + raw * (1 - k)

/-- The smoothed value after `n` consecutive calls with the same raw input. -/
def smoothIter (k raw s0 : ℚ) : ℕ → ℚ
  | 0 => s0
  | n + 1 => smoothStep k raw (smoothIter k raw s0 n)

/-- Embeds `setSmoothingFactor`: clamp the configured factor to `[0,1]`. -/
def setSmoothingFactor (factor : ℚ) : ℚ := max 0 (min 1 factor)

lemma smoothIter_sub (k raw s0 : ℚ) (n : ℕ) :
    smoothIter k raw s0 n - raw = k ^ n * (s0 - raw) := by
  induction n with
  | zero => simp [smoothIter]
  | succ n ih =>
    have : smoothIter k raw s0 (n + 1) - raw
        = k * (smoothIter k raw s0 n - raw) := by
      simp [smoothIter, smoothStep]; ring
    rw [this, ih, pow_succ]; ring

/-! ## AudioAnalyzer: band energy and beat detection
(`_getFrequencyRangeEnergy` lines 294-304, `getBeatDetected` lines 311-347) -/

/-- Accumulator of the `_getFrequencyRangeEnergy` loop: the sum of
`frequencyData[start] .. frequencyData[start + n - 1]`. -/
def rangeSum (freq : List ℕ) (start : ℕ) : ℕ → ℕ
  | 0 => 0
  | n + 1 => freq.getD start 0 + rangeSum freq (start + 1) n

/-- Body of `_getFrequencyRangeEnergy(startBin, endBin)`: arithmetic mean of
the byte-scale frequency bins with index in `[startBin, endBin]`, divided by
255 (`0` when the index range is empty). The JS loop is
`for (i = startBin; i <= endBin; i++) sum += frequencyData[i]`, so the bin
count is `endBin + 1 - startBin`. -/
def rangeEnergy (freq : List ℕ) (startBin endBin : ℕ) : ℚ :=
  let count := endBin + 1 - startBin
  if 0 < count then (rangeSum freq startBin count : ℚ) / count / 255 else 0

/-- Beat-detection state of the analyzer (constructor lines 21-26). -/
structure BeatState where
  energyHistory : List ℚ
  energyHistoryLength : ℕ
  beatThreshold : ℚ
  lastBeatTime : ℚ
  beatCooldown : ℚ
deriving DecidableEq

/-- Fresh beat state: empty history, window length 43, threshold 1.3,
cooldown 100 ms, last beat at time 0. -/
def BeatState.init : BeatState :=
  { energyHistory := [], energyHistoryLength := 43, beatThreshold := 13/10,
    lastBeatTime := 0, beatCooldown := 100 }

/-- Embeds `energyHistory.push(e)` followed by the bounded-window maintenance
`if (energyHistory.length > energyHistoryLength) energyHistory.shift()`. -/
def pushEnergy (s : BeatState) (e : ℚ) : List ℚ :=
  let h := s.energyHistory ++ [e]
  if s.energyHistoryLength < h.length then h.tail else h

/-- Embeds `energyHistory.reduce((a,b) => a+b, 0) / energyHistory.length`. -/
def histMean (h : List ℚ) : ℚ := h.sum / h.length

/-- Core of `getBeatDetected` after the current energy has been computed:
push the energy into the window, compare against `mean * beatThreshold` and
the cooldown on `now - lastBeatTime`, and on a beat record `now`. -/
def beatCore (s : BeatState) (e now : ℚ) : Bool × BeatState :=
  let h := pushEnergy s e
  let avg := histMean h
  if e > avg * s.beatThreshold ∧ now - s.lastBeatTime > s.beatCooldown then
    (true, { s with energyHistory := h, lastBeatTime := now })
  else
    (false, { s with energyHistory := h })

/-! ## AudioAnalyzer: initialized analyzer state and feature getters
(lines 190-231, 237-285, 311-347, 354-383, 460-469). The live analyser node
is modelled by passing the byte snapshot that `getByteFrequencyData` would
deliver, and `Date.now()` by an explicit `now` argument. -/

/-- The mutable state of an initialized `AudioAnalyzer`: the frequency-data
buffer, the static band bin map built by `_buildFrequencyBinMap`, the
smoothing state, the beat state and the auto-gain state. -/
structure Analyzer where
  frequencyData : List ℕ
  bufferLength : ℕ
  bassStart : ℕ
  bassEnd : ℕ
  midStart : ℕ
  midEnd : ℕ
  trebleStart : ℕ
  trebleEnd : ℕ
  smoothingFactor : ℚ
  previousBass : ℚ
  previousMid : ℚ
  previousTreble : ℚ
  previousAverage : ℚ
  beat : BeatState
  norm : NormState
deriving DecidableEq

/-- Embeds `getFrequencyData()` on an initialized analyzer: refresh
`frequencyData` from the analyser node (the `live` snapshot). -/
def getFrequencyData (s : Analyzer) (live : List ℕ) : Analyzer :=
  { s with frequencyData := live }

/-- Embeds `getBass()`: refresh the snapshot, average the bass bins, smooth against
`previousBass`, then adaptively normalize. -/
def getBass (s : Analyzer) (live : List ℕ) : ℚ × Analyzer :=
  let s := getFrequencyData s live
  let energy := rangeEnergy s.frequencyData s.bassStart s.bassEnd
  let prev := smoothStep s.smoothingFactor energy s.previousBass
  let s := { s with previousBass := prev }
  let rn := normalizeStep s.norm prev
  (rn.1, { s with norm := rn.2 })

/-- Embeds `getMid()`. -/
def getMid (s : Analyzer) (live : List ℕ) : ℚ × Analyzer :=
  let s := getFrequencyData s live
  let energy := rangeEnergy s.frequencyData s.midStart s.midEnd
  let prev := smoothStep s.smoothingFactor energy s.previousMid
  let s := { s with previousMid := prev }
  let rn := normalizeStep s.norm prev
  (rn.1, { s with norm := rn.2 })

/-- Embeds `getTreble()`. -/
def getTreble (s : Analyzer) (live : List ℕ) : ℚ × Analyzer :=
  let s := getFrequencyData s live
  let energy := rangeEnergy s.frequencyData s.trebleStart s.trebleEnd
  let prev := smoothStep s.smoothingFactor energy s.previousTreble
  let s := { s with previousTreble := prev }
  let rn := normalizeStep s.norm prev
  (rn.1, { s with norm := rn.2 })

/-- Embeds `getAverageFrequency()`: mean of all bins over 255, smoothed against
`previousAverage`, then adaptively normalized. -/
def getAverageFrequency (s : Analyzer) (live : List ℕ) : ℚ × Analyzer :=
  let s := getFrequencyData s live
  let average := ((s.frequencyData.sum : ℚ) / s.frequencyData.length) / 255
  let prev := smoothStep s.smoothingFactor average s.previousAverage
  let s := { s with previousAverage := prev }
  let rn := normalizeStep s.norm prev
  (rn.1, { s with norm := rn.2 })

/-- The bass/low-mid energy used by `getBeatDetected`: bins from
`bass.start` to `mid.start + Math.floor((mid.end - mid.start) * 0.3)`. -/
def beatEnergy (s : Analyzer) : ℚ :=
  rangeEnergy s.frequencyData s.bassStart
    (s.midStart + (s.midEnd - s.midStart) * 3 / 10)

/-- Embeds `getBeatDetected()` on an initialized analyzer, at wall-clock `now`. -/
def getBeatDetected (s : Analyzer) (live : List ℕ) (now : ℚ) :
    Bool × Analyzer :=
  let s := getFrequencyData s live
  let e := beatEnergy s
  let bb := beatCore s.beat e now
  (bb.1, { s with beat := bb.2 })

/-- Raw (pre-normalization) display spectrum of `getSpectrum(numBands)`:
band `i` averages the bins in `[floor((i/N)^2 * binCount),
floor(((i+1)/N)^2 * binCount))`, divided by 255 (`0` for an empty bucket). -/
def spectrumRaw (freq : List ℕ) (numBands : ℕ) : List ℚ :=
  (List.range numBands).map fun i =>
    let startBin := i ^ 2 * freq.length / numBands ^ 2
    let endBin := (i + 1) ^ 2 * freq.length / numBands ^ 2
    let idxs := (List.range (endBin - startBin)).map (· + startBin)
    if 0 < idxs.length then
      ((idxs.map (fun j => freq.getD j 0)).sum : ℚ) / idxs.length / 255
    else 0

/-- Embeds `getSpectrum(numBands)`: refresh the snapshot, bucket it quadratically,
then map `_normalize` over the buckets (threading the envelope state). -/
def getSpectrum (s : Analyzer) (live : List ℕ) (numBands : ℕ) :
    List ℚ × Analyzer :=
  let s := getFrequencyData s live
  let rn := normalizeSeq s.norm (spectrumRaw s.frequencyData numBands)
  (rn.1, { s with norm := rn.2 })

/-- The per-tick `AudioFrame` snapshot assembled by `getAudioData`. -/
structure AudioFrame where
  bass : ℚ
  mid : ℚ
  treble : ℚ
  energy : ℚ
  beat : Bool
  spectrum : List ℕ
deriving DecidableEq

/-- Embeds `getAudioData()`: evaluate `getBass`, `getMid`, `getTreble`,
`getAverageFrequency`, `getBeatDetected` in source order, and set the
`spectrum` field to `this.getFrequencyData()` — the raw byte snapshot, not
the banded `getSpectrum` output. -/
def getAudioData (s : Analyzer) (live : List ℕ) (now : ℚ) :
    AudioFrame × Analyzer :=
  let b := getBass s live
  let m := getMid b.2 live
  let t := getTreble m.2 live
  let e := getAverageFrequency t.2 live
  let bt := getBeatDetected e.2 live now
  let s5 := getFrequencyData bt.2 live
  ({ bass := b.1, mid := m.1, treble := t.1, energy := e.1, beat := bt.1,
     spectrum := s5.frequencyData }, s5)

/-! ## AudioAnalyzer: the uninitialized object
(constructor lines 9-48). Before `init()` runs, `analyser`,
`frequencyData` and `frequencyBinMap` are all `null`; a JavaScript property
access or element access on `null` throws a `TypeError`, modelled with
`Except`. -/

/-- The frequency bin map built by `_buildFrequencyBinMap` (lines 158-184);
`null` until `init()` runs. -/
structure BinMap where
  bassStart : ℕ
  bassEnd : ℕ
  midStart : ℕ
  midEnd : ℕ
  trebleStart : ℕ
  trebleEnd : ℕ
deriving DecidableEq

/-- Nullable part of a possibly-uninitialized `AudioAnalyzer`: `analyser`
(reduced to presence), the `frequencyData` buffer, the bin map, and
`bufferLength` (always set to 1024 by the constructor). -/
structure RawAnalyzer where
  hasAnalyser : Bool
  frequencyData : Option (List ℕ)
  frequencyBinMap : Option BinMap
  bufferLength : ℕ
deriving DecidableEq

/-- The analyzer as built by `new AudioAnalyzer()` with `init()` never
called: `analyser = null`, `frequencyData = null`, `frequencyBinMap = null`,
`bufferLength = 1024`. -/
def rawUninit : RawAnalyzer :=
  { hasAnalyser := false, frequencyData := none, frequencyBinMap := none,
    bufferLength := 1024 }

/-- Dereference a nullable JavaScript value: `null` throws a `TypeError`. -/
def jsDeref {α : Type} : Option α → Except String α
  | none => .error "TypeError"
  | some a => .ok a

/-- Embeds `getFrequencyData()` on a possibly-uninitialized analyzer: with
`analyser === null` it returns a fresh all-zero `Uint8Array(bufferLength)`
without touching `frequencyData`; otherwise it refreshes and returns the
buffer (modelled by the `live` snapshot). This getter never throws. -/
def rawGetFrequencyData (s : RawAnalyzer) (live : List ℕ) :
    List ℕ × RawAnalyzer :=
  if s.hasAnalyser = false then (List.replicate s.bufferLength 0, s)
  else (live, { s with frequencyData := some live })

/-- Embeds `getBass()` on a possibly-uninitialized analyzer: after the (non-throwing)
`getFrequencyData()` call it reads `this.frequencyBinMap.bass.start`, which
throws when the bin map is `null`, and then indexes `this.frequencyData`
inside `_getFrequencyRangeEnergy`, which throws when the buffer is `null`.
The smoothing/normalization tail is irrelevant to the claim and elided once
a value is obtained. -/
def rawGetBass (s : RawAnalyzer) (live : List ℕ) : Except String ℚ := do
  let s := (rawGetFrequencyData s live).2
  let bm ← jsDeref s.frequencyBinMap
  let fd ← jsDeref s.frequencyData
  .ok (rangeEnergy fd bm.bassStart bm.bassEnd)

/-- Embeds `getMid()` on a possibly-uninitialized analyzer. -/
def rawGetMid (s : RawAnalyzer) (live : List ℕ) : Except String ℚ := do
  let s := (rawGetFrequencyData s live).2
  let bm ← jsDeref s.frequencyBinMap
  let fd ← jsDeref s.frequencyData
  .ok (rangeEnergy fd bm.midStart bm.midEnd)

/-- Embeds `getTreble()` on a possibly-uninitialized analyzer. -/
def rawGetTreble (s : RawAnalyzer) (live : List ℕ) : Except String ℚ := do
  let s := (rawGetFrequencyData s live).2
  let bm ← jsDeref s.frequencyBinMap
  let fd ← jsDeref s.frequencyData
  .ok (rangeEnergy fd bm.trebleStart bm.trebleEnd)

/-- Embeds `getAverageFrequency()` on a possibly-uninitialized analyzer: the loop
bound reads `this.frequencyData.length`, throwing on `null`. -/
def rawGetAverageFrequency (s : RawAnalyzer) (live : List ℕ) :
    Except String ℚ := do
  let s := (rawGetFrequencyData s live).2
  let fd ← jsDeref s.frequencyData
  .ok (((fd.sum : ℚ) / fd.length) / 255)

/-- Embeds `getBeatDetected()` on a possibly-uninitialized analyzer: reads
`this.frequencyBinMap.bass.start`, throwing on `null`. -/
def rawGetBeatDetected (s : RawAnalyzer) (live : List ℕ) :
    Except String Bool := do
  let s := (rawGetFrequencyData s live).2
  let bm ← jsDeref s.frequencyBinMap
  let fd ← jsDeref s.frequencyData
  .ok (decide (rangeEnergy fd bm.bassStart
    (bm.midStart + (bm.midEnd - bm.midStart) * 3 / 10) > 0))

/-- Embeds `getSpectrum()` on a possibly-uninitialized analyzer: reads
`this.frequencyData.length`, throwing on `null`. -/
def rawGetSpectrum (s : RawAnalyzer) (live : List ℕ) (numBands : ℕ) :
    Except String (List ℚ) := do
  let s := (rawGetFrequencyData s live).2
  let fd ← jsDeref s.frequencyData
  .ok (spectrumRaw fd numBands)

/-! ## WebcamAnalyzer: motion-heat buffer update
(`analyzeFrame`, `src/renderer/webcamAnalyzer.js` lines 147-171). The heat
buffer is a `Uint8ClampedArray`, so each cell holds an integer in
`[0, 255]`. -/

/-- Per-pixel motion-heat update of `analyzeFrame`: a moving pixel
(`diff > motionThreshold`) refreshes heat to
`max(heat, min(255, diff * 3))`; a non-moving pixel decays to
`Math.floor(heat * trailDecay)`. -/
def motionPixelStep (motionThreshold : ℕ) (trailDecay : ℚ) (heat diff : ℕ) :
    ℕ :=
  if motionThreshold < diff then max heat (min 255 (diff * 3))
  else (⌊(heat : ℚ) * trailDecay⌋).toNat

/-- Heat of an undisturbed pixel (`diff = 0` every tick) after `n` further
`analyzeFrame` ticks, at the default threshold 15. -/
def decayIter (trailDecay : ℚ) (heat : ℕ) : ℕ → ℕ
  | 0 => heat
  | n + 1 => decayIter trailDecay (motionPixelStep 15 trailDecay heat 0) n

/-! ## ConfettiParticleSystem: orientation-dependent aerodynamics
(physics constants lines 15-24 and `update` lines 292-357). These are
real-valued because flatness is `Math.abs(Math.cos(pitch))`. -/

/-- Embeds `GRAVITY = 1.2`. -/
def GRAVITY : ℝ := 1.2

/-- Embeds `BASE_DRAG = 0.4`. -/
def BASE_DRAG : ℝ := 0.4

/-- Embeds `FLAT_DRAG_MULT = 7.0`. -/
def FLAT_DRAG_MULT : ℝ := 7.0

/-- Embeds `EDGE_DRAG_MULT = 0.8`. -/
def EDGE_DRAG_MULT : ℝ := 0.8

/-- Embeds `p.flatness = Math.abs(Math.cos(p.pitch))` (line 303). -/
noncomputable def flatness (pitch : ℝ) : ℝ := |Real.cos pitch|

/-- Embeds `effectiveDrag = BASE_DRAG * dragCoeff * (EDGE_DRAG_MULT +
(FLAT_DRAG_MULT - EDGE_DRAG_MULT) * flatness)` (lines 337-338). -/
noncomputable def effectiveDrag (dragCoeff fl : ℝ) : ℝ :=
  BASE_DRAG * dragCoeff * (EDGE_DRAG_MULT + (FLAT_DRAG_MULT - EDGE_DRAG_MULT) * fl)

/-- Embeds `liftFactor = 1.0 - flatness * 0.6` (line 354). -/
noncomputable def liftFactor (fl : ℝ) : ℝ := 1.0 - fl * 0.6

/-- Embeds `effectiveGravity = GRAVITY * liftFactor` (line 355). -/
noncomputable def effectiveGravity (fl : ℝ) : ℝ := GRAVITY * liftFactor fl

/-! ## Particle pools: shared slot search

All three particle systems carry an identical `findInactiveParticle`
(confetti lines 196-205, spark lines 108-118, bubble lines 119-128): scan
`maxParticles` slots starting at the rotating cursor `nextFreeSlot`, return
the first inactive slot and advance the cursor past it. -/

/-- Number of particles with `active == true` in a pool. -/
def countActive {α : Type} (isActive : α → Bool) (pool : List α) : ℕ :=
  (pool.filter isActive).length

/-- The shared `findInactiveParticle` slot search, returning the index of
the first inactive slot in rotating order (`(cursor + i) % maxParticles` for
`i = 0 .. maxParticles - 1`), or `none` when the pool is full. `d` is the
`getD` default; the systems keep `pool.length = maxParticles` so it is never
consulted. -/
def poolFindInactive {α : Type} (isActive : α → Bool) (d : α)
    (pool : List α) (n cursor : ℕ) : Option ℕ :=
  (List.range n).findSome? fun i =>
    let idx := (cursor + i) % n
    if isActive (pool.getD idx d) then none else some idx

/-! ## SparkParticleSystem (`src/renderer/sparkParticleSystem.js`) -/

/-- A pooled spark particle (constructor lines 58-70). -/
structure SparkParticle where
  x : ℚ
  y : ℚ
  vx : ℚ
  vy : ℚ
  age : ℚ
  lifetime : ℚ
  size : ℚ
  colorIndex : ℚ
  active : Bool
deriving DecidableEq

/-- The inactive particle the pool is filled with. -/
def SparkParticle.fresh : SparkParticle :=
  { x := 0, y := 0, vx := 0, vy := 0, age := 1, lifetime := 1, size := 1,
    colorIndex := 0, active := false }

/-- State of a `SparkParticleSystem` (GPU resources elided). -/
structure SparkSystem where
  maxParticles : ℕ
  activeCount : ℕ
  density : ℚ
  sizeMultiplier : ℚ
  particles : List SparkParticle
  nextFreeSlot : ℕ
deriving DecidableEq

/-- Embeds `findInactiveParticle()` for the spark pool. -/
def SparkSystem.findInactive (s : SparkSystem) : Option ℕ :=
  poolFindInactive (fun p => p.active) SparkParticle.fresh
    s.particles s.maxParticles s.nextFreeSlot

/-- One successful spawn inside `spawnFromMotion` (lines 171-191): find an
inactive slot, fully reinitialize it from the (randomized) initializer with
`active = true`, advance the cursor, and increment `activeCount`; `none`
when the pool is full. -/
def sparkSpawnOne (s : SparkSystem) (init : SparkParticle) :
    Option SparkSystem :=
  match s.findInactive with
  | none => none
  | some idx =>
    some { s with particles := s.particles.set idx { init with active := true },
                  nextFreeSlot := (idx + 1) % s.maxParticles,
                  activeCount := s.activeCount + 1 }

/-- The spawning part of `spawnFromMotion` (lines 132-193): the random
sampling, leading-edge test and randomized field initialization are
abstracted into the list of initializers that pass the checks; the pool
discipline (stop as soon as `findInactiveParticle` returns `null`) is kept
as in the source (`if (!particle) return`). -/
def sparkSpawnFromMotion (s : SparkSystem) : List SparkParticle → SparkSystem
  | [] => s
  | init :: rest =>
    match sparkSpawnOne s init with
    | none => s
    | some s' => sparkSpawnFromMotion s' rest

/-- Per-particle physics of `update` (lines 206-215): drift, velocity decay
`×0.98`, aging by `dt / lifetime`. -/
def sparkStep (dt : ℚ) (p : SparkParticle) : SparkParticle :=
  { p with x := p.x + p.vx * dt, y := p.y + p.vy * dt,
           vx := p.vx * (98/100), vy := p.vy * (98/100),
           age := p.age + dt / p.lifetime }

/-- Deactivation test of `update` (line 218):
`age >= 1 || x < -0.2 || x > 1.2 || y < -0.2 || y > 1.2`. -/
def sparkDead (p : SparkParticle) : Bool :=
  1 ≤ p.age || p.x < -(2/10) || p.x > 12/10 || p.y < -(2/10) || p.y > 12/10

/-- Embeds `update(dt)` (lines 199-228): reset `activeCount`, advance every active
particle, deactivate dead ones, count the survivors. (`updateBuffers` is
modelled separately.) -/
def sparkUpdate (s : SparkSystem) (dt : ℚ) : SparkSystem :=
  let pool := s.particles.map fun p =>
    if p.active then
      let p' := sparkStep dt p
      if sparkDead p' then { p' with active := false } else p'
    else p
  { s with particles := pool, activeCount := countActive (fun p => p.active) pool }

/-- One packed vertex of the spark render buffer: clip-space position,
quadratic age fade, and size (lines 239-256). The color channels depend on
`Date.now()` in color mode 2 and are not needed by any claim, so they are
not modelled; they do not affect the draw range. -/
structure SparkRenderEntry where
  px : ℚ
  py : ℚ
  pz : ℚ
  alpha : ℚ
  size : ℚ
deriving DecidableEq

/-- The attribute values `updateBuffers` writes at packing slot `idx` for an
active particle. -/
def sparkRenderEntry (sizeMultiplier : ℚ) (p : SparkParticle) :
    SparkRenderEntry :=
  let fade := 1 - p.age
  { px := p.x * 2 - 1, py := p.y * 2 - 1, pz := 0,
    alpha := fade * fade,
    size := p.size * 12 * (1/2 + fade * (1/2)) * sizeMultiplier }

/-- Embeds `updateBuffers()` (lines 233-266): pack one entry per active particle in
pool order and set the draw range to the packing counter `idx`. Returns the
packed entries and the draw range. -/
def sparkUpdateBuffers (s : SparkSystem) : List SparkRenderEntry × ℕ :=
  let entries := s.particles.filterMap fun p =>
    if p.active then some (sparkRenderEntry s.sizeMultiplier p) else none
  (entries, entries.length)

/-- Embeds `setMaxParticles` clamp (line 451):
`Math.max(500, Math.min(10000, Math.floor(newMax)))`. -/
def clampMaxParticles (newMax : ℚ) : ℕ :=
  (max 500 (min 10000 ⌊newMax⌋)).toNat

/-- Embeds `setMaxParticles(newMax)` (lines 450-485): clamp, return unchanged when
the clamped capacity equals the current one, otherwise reset `activeCount`
and the cursor to 0, and replace the pool by a freshly allocated all-inactive
pool of the new capacity (`// Clear existing particles`). -/
def setMaxParticles (s : SparkSystem) (newMax : ℚ) : SparkSystem :=
  let n := clampMaxParticles newMax
  if n = s.maxParticles then s
  else { maxParticles := n, activeCount := 0,
         density := s.density, sizeMultiplier := s.sizeMultiplier,
         particles := List.replicate n SparkParticle.fresh,
         nextFreeSlot := 0 }

/-- Embeds `clear()` (lines 490-496): deactivate every slot, keep the storage. -/
def sparkClear (s : SparkSystem) : SparkSystem :=
  { s with particles := s.particles.map fun p => { p with active := false },
           activeCount := 0 }

/-! ## ConfettiParticleSystem (`src/renderer/confettiParticleSystem.js`) -/

/-- A pooled confetti particle (constructor lines 122-147). -/
structure ConfettiParticle where
  x : ℚ
  y : ℚ
  vx : ℚ
  vy : ℚ
  size : ℚ
  alpha : ℚ
  hue : ℚ
  pitch : ℚ
  pitchVel : ℚ
  yaw : ℚ
  yawVel : ℚ
  flat : ℚ
  aspectRatio : ℚ
  dragCoeff : ℚ
  mass : ℚ
  age : ℚ
  maxAge : ℚ
  bounces : ℕ
  active : Bool
deriving DecidableEq

/-- The inactive particle the confetti pool is filled with. -/
def ConfettiParticle.fresh : ConfettiParticle :=
  { x := 0, y := 0, vx := 0, vy := 0, size := 1, alpha := 1, hue := 0,
    pitch := 0, pitchVel := 0, yaw := 0, yawVel := 0, flat := 1,
    aspectRatio := 3, dragCoeff := 1, mass := 1, age := 0, maxAge := 5,
    bounces := 0, active := false }

/-- State of a `ConfettiParticleSystem` (GPU resources elided; the fractional
spawn accumulator, which only controls how many pieces spawn per tick, is
absorbed into the spawn-initializer list of `confettiUpdate`). -/
structure ConfettiSystem where
  maxParticles : ℕ
  activeCount : ℕ
  spawnRate : ℚ
  motionThreshold : ℕ
  particles : List ConfettiParticle
  nextFreeSlot : ℕ
  time : ℚ
deriving DecidableEq

/-- Embeds `findInactiveParticle()` for the confetti pool (lines 196-205). -/
def ConfettiSystem.findInactive (s : ConfettiSystem) : Option ℕ :=
  poolFindInactive (fun p => p.active) ConfettiParticle.fresh
    s.particles s.maxParticles s.nextFreeSlot

/-- Embeds `spawnConfetti` (lines 211-246): find an inactive slot (no-op when the
pool is full), fully reinitialize it from the randomized initializer and set
`active = true`. `activeCount` is not touched by spawning. -/
def confettiSpawnOne (s : ConfettiSystem) (init : ConfettiParticle) :
    ConfettiSystem :=
  match s.findInactive with
  | none => s
  | some idx =>
    { s with particles := s.particles.set idx { init with active := true },
             nextFreeSlot := (idx + 1) % s.maxParticles }

/-- The spawn phase of `update` (lines 272-281): the steady-rate accumulator
loop plus the probabilistic bursts, with the number of spawned pieces and
their random initializations abstracted into the initializer list. -/
def confettiSpawnMany (s : ConfettiSystem) :
    List ConfettiParticle → ConfettiSystem
  | [] => s
  | init :: rest => confettiSpawnMany (confettiSpawnOne s init) rest

/-- Deactivation test of `update` (lines 403-408): `y < -0.15 || x < -0.15
|| x > 1.15 || bounces > 10 || alpha < 0.1 || age > maxAge`. -/
def confettiDead (p : ConfettiParticle) : Bool :=
  p.y < -(15/100) || p.x < -(15/100) || p.x > 115/100 || p.bounces > 10 ||
    p.alpha < 1/10 || p.age > p.maxAge

/-- Embeds `update(dt, motionBuffer, ...)` (lines 268-418): advance time, spawn,
then for every active particle run the aerodynamic physics and motion
collision (lines 289-399) and deactivate dead pieces, recounting
`activeCount`. The physics block draws `Math.random()` and evaluates
`cos`/`sin`/`sqrt`, so it is abstracted as an arbitrary per-particle field
transformation `phys`; the pool/counting discipline under scrutiny is
independent of it, while the deactivation test is kept verbatim. -/
def confettiUpdate (s : ConfettiSystem) (dt : ℚ)
    (spawnInits : List ConfettiParticle)
    (phys : ConfettiParticle → ConfettiParticle) : ConfettiSystem :=
  let s := { s with time := s.time + dt }
  let s := confettiSpawnMany s spawnInits
  let pool := s.particles.map fun p =>
    if p.active then
      let p' := phys p
      if confettiDead p' then { p' with active := false } else p'
    else p
  { s with particles := pool, activeCount := countActive (fun p => p.active) pool }

/-- One packed vertex of the confetti render buffer (lines 426-455). -/
structure ConfettiRenderEntry where
  px : ℚ
  py : ℚ
  pz : ℚ
  alpha : ℚ
  size : ℚ
  hue : ℚ
  rotation : ℚ
  aspectRatio : ℚ
deriving DecidableEq

/-- The attribute values confetti `updateBuffers` writes for an active
particle: clip-space position, end-of-life fade, foreshortened size,
hue, combined rotation `pitch + yaw * 0.3`, aspect ratio. -/
def confettiRenderEntry (p : ConfettiParticle) : ConfettiRenderEntry :=
  let ageRatio := p.age / p.maxAge
  let ageFade := if ageRatio < 8/10 then 1
                 else 1 - ((ageRatio - 8/10) / (2/10)) ^ 2
  { px := p.x * 2 - 1, py := p.y * 2 - 1, pz := 0,
    alpha := p.alpha * ageFade,
    size := p.size * 12 * (3/10 + (7/10) * p.flat),
    hue := p.hue,
    rotation := p.pitch + p.yaw * (3/10),
    aspectRatio := p.aspectRatio }

/-- Confetti `updateBuffers()` (lines 423-466): pack one entry per active
particle in pool order; the draw range is the packing counter. -/
def confettiUpdateBuffers (s : ConfettiSystem) :
    List ConfettiRenderEntry × ℕ :=
  let entries := s.particles.filterMap fun p =>
    if p.active then some (confettiRenderEntry p) else none
  (entries, entries.length)

/-! ## BubbleParticleSystem (`src/unnamed/part_004`, first variant:
falling sparks that bounce off motion) -/

/-- A pooled bubble/rain particle (constructor lines 68-79). -/
structure BubbleParticle where
  x : ℚ
  y : ℚ
  vx : ℚ
  vy : ℚ
  size : ℚ
  alpha : ℚ
  bounces : ℕ
  active : Bool
deriving DecidableEq

/-- The inactive particle the bubble pool is filled with. -/
def BubbleParticle.fresh : BubbleParticle :=
  { x := 0, y := 0, vx := 0, vy := 0, size := 1, alpha := 1, bounces := 0,
    active := false }

/-- State of a `BubbleParticleSystem` (GPU resources and the fractional
spawn accumulator elided as for confetti). -/
structure BubbleSystem where
  maxParticles : ℕ
  activeCount : ℕ
  gravity : ℚ
  bounceDamping : ℚ
  spawnRate : ℚ
  motionThreshold : ℕ
  particles : List BubbleParticle
  nextFreeSlot : ℕ
deriving DecidableEq

/-- Embeds `findInactiveParticle()` for the bubble pool (lines 119-128). -/
def BubbleSystem.findInactive (s : BubbleSystem) : Option ℕ :=
  poolFindInactive (fun p => p.active) BubbleParticle.fresh
    s.particles s.maxParticles s.nextFreeSlot

/-- Embeds `spawnBubble()` (lines 133-150): find an inactive slot (no-op when the
pool is full) and reinitialize it from the randomized initializer with
`active = true`; `activeCount` is not touched. -/
def bubbleSpawnOne (s : BubbleSystem) (init : BubbleParticle) :
    BubbleSystem :=
  match s.findInactive with
  | none => s
  | some idx =>
    { s with particles := s.particles.set idx { init with active := true },
             nextFreeSlot := (idx + 1) % s.maxParticles }

/-- The spawn phase of bubble `update` (lines 161-165). -/
def bubbleSpawnMany (s : BubbleSystem) :
    List BubbleParticle → BubbleSystem
  | [] => s
  | init :: rest => bubbleSpawnMany (bubbleSpawnOne s init) rest

/-- Per-particle physics of bubble `update` (lines 173-218): gravity,
integration, motion-buffer collision (bounce with damping, random horizontal
scatter `rand ∈ [0,1)`, push-back above the collision point, alpha fade,
bounce count, horizontal kill `×0.5`), then horizontal damping `×0.9`. -/
def bubblePhysics (gravity damping : ℚ) (mt : ℕ)
    (motion : Option (List ℕ)) (w h : ℕ) (rand dt : ℚ)
    (p : BubbleParticle) : BubbleParticle :=
  let p := { p with vy := p.vy - gravity * dt }
  let prevY := p.y
  let p := { p with x := p.x + p.vx * dt, y := p.y + p.vy * dt }
  let p :=
    match motion with
    | none => p
    | some buf =>
      if w = 0 ∨ h = 0 then p
      else
        let bufX := ⌊p.x * w⌋
        let bufY := ⌊(1 - p.y) * h⌋
        if 0 ≤ bufX ∧ bufX < w ∧ 0 ≤ bufY ∧ bufY < h then
          let motionValue := buf.getD (bufY.toNat * w + bufX.toNat) 0
          if mt < motionValue then
            { p with vy := -p.vy * damping,
                     vx := (p.vx + (rand - 1/2) * (1/10)) * (1/2),
                     y := prevY + 1/100,
                     alpha := p.alpha * (85/100),
                     bounces := p.bounces + 1 }
          else p
        else p
  { p with vx := p.vx * (9/10) }

/-- Deactivation test of bubble `update` (line 225):
`y < -0.1 || x < -0.1 || x > 1.1 || bounces > 3 || alpha < 0.1`. -/
def bubbleDead (p : BubbleParticle) : Bool :=
  p.y < -(1/10) || p.x < -(1/10) || p.x > 11/10 || p.bounces > 3 ||
    p.alpha < 1/10

/-- Bubble `update(dt, motionBuffer, motionWidth, motionHeight)` (lines
159-235): spawn, run the physics on every active particle (the scatter
random draw for slot `i` is `rand i`), deactivate dead particles and
recount `activeCount`. -/
def bubbleUpdate (s : BubbleSystem) (dt : ℚ)
    (spawnInits : List BubbleParticle) (motion : Option (List ℕ))
    (w h : ℕ) (rand : ℕ → ℚ) : BubbleSystem :=
  let s := bubbleSpawnMany s spawnInits
  let pool := (s.particles.enum).map fun ip =>
    let p := ip.2
    if p.active then
      let p' := bubblePhysics s.gravity s.bounceDamping s.motionThreshold
        motion w h (rand ip.1) dt p
      if bubbleDead p' then { p' with active := false } else p'
    else p
  { s with particles := pool, activeCount := countActive (fun p => p.active) pool }

/-- One packed vertex of the bubble render buffer (lines 246-258). -/
structure BubbleRenderEntry where
  px : ℚ
  py : ℚ
  pz : ℚ
  alpha : ℚ
  size : ℚ
deriving DecidableEq

/-- The attribute values bubble `updateBuffers` writes for an active
particle. -/
def bubbleRenderEntry (p : BubbleParticle) : BubbleRenderEntry :=
  { px := p.x * 2 - 1, py := p.y * 2 - 1, pz := 0,
    alpha := p.alpha, size := p.size * 15 }

/-- Bubble `updateBuffers()` (lines 240-268): pack one entry per active
particle in pool order; the draw range is the packing counter. -/
def bubbleUpdateBuffers (s : BubbleSystem) :
    List BubbleRenderEntry × ℕ :=
  let entries := s.particles.filterMap fun p =>
    if p.active then some (bubbleRenderEntry p) else none
  (entries, entries.length)

/-- Embeds `clear()` of the confetti system (lines 493-499): deactivate
every slot, reset `activeCount`, keep the backing storage. -/
def confettiClear (s : ConfettiSystem) : ConfettiSystem :=
  { s with particles := s.particles.map fun p => { p with active := false },
           activeCount := 0 }

/-- Embeds `clear()` of the bubble system (lines 311-317): deactivate every
slot, reset `activeCount`, keep the backing storage. -/
def bubbleClear (s : BubbleSystem) : BubbleSystem :=
  { s with particles := s.particles.map fun p => { p with active := false },
           activeCount := 0 }

/-! ## Particle pools: externally callable operation sequences

The pool-bound invariant of the spec quantifies over arbitrary sequences of
spawn, update and clear calls; each system's call surface is reified as an
operation type folded over a state. -/

/-- One externally callable pool operation of the confetti system:
`spawnConfetti`/`spawnBurst` (a batch of initializers), `update`, or
`clear`. -/
inductive ConfettiOp : Type
  | spawn (inits : List ConfettiParticle)
  | update (dt : ℚ) (inits : List ConfettiParticle)
      (phys : ConfettiParticle → ConfettiParticle)
  | clear

/-- Apply one confetti pool operation. -/
def confettiApply (s : ConfettiSystem) : ConfettiOp → ConfettiSystem
  | ConfettiOp.spawn inits => confettiSpawnMany s inits
  | ConfettiOp.update dt inits phys => confettiUpdate s dt inits phys
  | ConfettiOp.clear => confettiClear s

/-- Run a sequence of confetti pool operations from a state. -/
def confettiRun (s : ConfettiSystem) : List ConfettiOp → ConfettiSystem
  | [] => s
  | op :: ops => confettiRun (confettiApply s op) ops

/-- One externally callable pool operation of the spark system:
`spawnFromMotion`, `update`, `clear`, or `setMaxParticles`. -/
inductive SparkOp : Type
  | spawn (inits : List SparkParticle)
  | update (dt : ℚ)
  | clear
  | resize (newMax : ℚ)

/-- Apply one spark pool operation. -/
def sparkApply (s : SparkSystem) : SparkOp → SparkSystem
  | SparkOp.spawn inits => sparkSpawnFromMotion s inits
  | SparkOp.update dt => sparkUpdate s dt
  | SparkOp.clear => sparkClear s
  | SparkOp.resize m => setMaxParticles s m

/-- Run a sequence of spark pool operations from a state. -/
def sparkRun (s : SparkSystem) : List SparkOp → SparkSystem
  | [] => s
  | op :: ops => sparkRun (sparkApply s op) ops

/-- One externally callable pool operation of the bubble system:
`spawnBubble` (a batch of initializers), `update`, or `clear`. -/
inductive BubbleOp : Type
  | spawn (inits : List BubbleParticle)
  | update (dt : ℚ) (inits : List BubbleParticle) (motion : Option (List ℕ))
      (w h : ℕ) (rand : ℕ → ℚ)
  | clear

/-- Apply one bubble pool operation. -/
def bubbleApply (s : BubbleSystem) : BubbleOp → BubbleSystem
  | BubbleOp.spawn inits => bubbleSpawnMany s inits
  | BubbleOp.update dt inits motion w h rand =>
      bubbleUpdate s dt inits motion w h rand
  | BubbleOp.clear => bubbleClear s

/-- Run a sequence of bubble pool operations from a state. -/
def bubbleRun (s : BubbleSystem) : List BubbleOp → BubbleSystem
  | [] => s
  | op :: ops => bubbleRun (bubbleApply s op) ops

/-! ## Concrete example states used by witnesses and counterexamples -/

/-- A beat state whose 43-sample window is full of quiet (zero) energy:
the state reached after a 43-tick silent warm-up from `BeatState.init`. -/
def beatWarm : BeatState :=
  { energyHistory := List.replicate 43 0, energyHistoryLength := 43,
    beatThreshold := 13/10, lastBeatTime := 0, beatCooldown := 100 }

/-- A small initialized analyzer: 4 frequency bins, bass = bin 0,
mid = bins 1-2, treble = bins 2-3, default smoothing/beat/auto-gain state
with a quiet warmed-up beat window. -/
def analyzerA : Analyzer :=
  { frequencyData := [0, 0, 0, 0], bufferLength := 4,
    bassStart := 0, bassEnd := 0, midStart := 1, midEnd := 2,
    trebleStart := 2, trebleEnd := 3,
    smoothingFactor := 7/10, previousBass := 0, previousMid := 0,
    previousTreble := 0, previousAverage := 0,
    beat := beatWarm, norm := NormState.init }

/-- A byte snapshot whose bass/low-mid bins are saturated: the beat energy
of `analyzerA` on it is 1. -/
def liveSpike : List ℕ := [255, 255, 0, 0]

/-- A spark particle that is active mid-screen. -/
def sparkActiveP : SparkParticle :=
  { x := 1/2, y := 1/2, vx := 0, vy := 0, age := 0, lifetime := 1, size := 1,
    colorIndex := 0, active := true }

/-- A spark system at the minimum capacity 500 with exactly one active
particle, in slot 0. -/
def sparkSys500 : SparkSystem :=
  { maxParticles := 500, activeCount := 1, density := 1, sizeMultiplier := 1,
    particles := sparkActiveP :: List.replicate 499 SparkParticle.fresh,
    nextFreeSlot := 1 }

/-- A fully active two-slot spark pool. -/
def sparkFullSys : SparkSystem :=
  { maxParticles := 2, activeCount := 2, density := 1, sizeMultiplier := 1,
    particles := List.replicate 2 sparkActiveP, nextFreeSlot := 0 }

/-- An active confetti particle. -/
def confettiActiveP : ConfettiParticle :=
  { ConfettiParticle.fresh with x := 1/2, y := 1/2, active := true }

/-- A fully active two-slot confetti pool. -/
def confettiFullSys : ConfettiSystem :=
  { maxParticles := 2, activeCount := 2, spawnRate := 160,
    motionThreshold := 30,
    particles := List.replicate 2 confettiActiveP, nextFreeSlot := 0,
    time := 0 }

/-- An active bubble particle. -/
def bubbleActiveP : BubbleParticle :=
  { BubbleParticle.fresh with x := 1/2, y := 1/2, active := true }

/-- A fully active two-slot bubble pool. -/
def bubbleFullSys : BubbleSystem :=
  { maxParticles := 2, activeCount := 2, gravity := 4,
    bounceDamping := 3/10, spawnRate := 80, motionThreshold := 35,
    particles := List.replicate 2 bubbleActiveP, nextFreeSlot := 0 }

/-! ## Helper lemmas -/

lemma clamp01_nonneg (x : ℚ) : 0 ≤ clamp01 x := le_max_left 0 _

lemma clamp01_le_one (x : ℚ) : clamp01 x ≤ 1 :=
  max_le (by norm_num) (min_le_left 1 x)

lemma clamp01_eq_self {x : ℚ} (h0 : 0 ≤ x) (h1 : x ≤ 1) : clamp01 x = x := by
  unfold clamp01
  rw [min_eq_right h1, max_eq_right h0]

lemma normalizeStep_mem_unit (st : NormState) {v : ℚ} (h0 : 0 ≤ v)
    (h1 : v ≤ 1) :
    0 ≤ (normalizeStep st v).1 ∧ (normalizeStep st v).1 ≤ 1 := by
  unfold normalizeStep
  split
  · exact ⟨clamp01_nonneg v, clamp01_le_one v⟩
  · dsimp only
    split
    · exact ⟨h0, h1⟩
    · exact ⟨clamp01_nonneg _, clamp01_le_one _⟩

/-- C2, main part, as an induction-friendly statement. -/
lemma normalizeSeq_mem_unit (st : NormState) (vs : List ℚ)
    (h : ∀ v ∈ vs, 0 ≤ v ∧ v ≤ 1) :
    ∀ r ∈ (normalizeSeq st vs).1, 0 ≤ r ∧ r ≤ 1 := by
  induction vs generalizing st with
  | nil => intro r hr; simp [normalizeSeq] at hr
  | cons v vs ih =>
    intro r hr
    simp only [normalizeSeq, List.mem_cons] at hr
    rcases hr with hr | hr
    · subst hr
      exact normalizeStep_mem_unit st (h v (by simp)).1 (h v (by simp)).2
    · exact ih _ (fun w hw => h w (by simp [hw])) r hr

/-- C2: Every value returned by the adaptive-gain normalizer on a sequence of
inputs in `[0,1]` lies in `[0,1]`; when the decayed envelope range is below
`0.001` the returned value is the raw input clamped to `[0,1]` (no division
happens); with adaptive gain disabled the result is the raw input clamped to
`[0,1]`. -/
theorem normalize_spec :
    (∀ (st : NormState) (vs : List ℚ), (∀ v ∈ vs, 0 ≤ v ∧ v ≤ 1) →
      ∀ r ∈ (normalizeSeq st vs).1, 0 ≤ r ∧ r ≤ 1)
    ∧ (∀ (st : NormState) (v : ℚ), 0 ≤ v → v ≤ 1 →
        st.adaptiveGain = true →
        (envUpdate st v).2 - (envUpdate st v).1 < 1/1000 →
        (normalizeStep st v).1 = clamp01 v)
    ∧ (∀ (st : NormState) (v : ℚ), st.adaptiveGain = false →
        (normalizeStep st v).1 = clamp01 v) := by
  refine ⟨normalizeSeq_mem_unit, ?_, ?_⟩
  · intro st v h0 h1 hgain hrange
    unfold normalizeStep
    rw [if_neg (by simp [hgain])]
    dsimp only
    rw [if_pos (by exact hrange)]
    exact (clamp01_eq_self h0 h1).symm
  · intro st v hgain
    unfold normalizeStep
    rw [if_pos hgain]

/-- Witness for `normalize_spec` at a concrete state and input. -/
theorem normalize_spec_witness :
    (normalizeStep NormState.disabled (3/2)).1 = clamp01 (3/2) :=
  normalize_spec.2.2 _ _ rfl

lemma smoothIter_k_one (raw s0 : ℚ) : ∀ n, smoothIter 1 raw s0 n = s0 := by
  intro n
  induction n with
  | zero => rfl
  | succ n ih => simp [smoothIter, smoothStep, ih]

/-- C5 (amended): for any smoothing factor `k ∈ [0,1]`, under repeated
identical raw input the smoothed band value never overshoots the raw value
and moves toward it monotonically; for `k ∈ [0,1)` it moreover converges to
the raw value. At `k = 1` the recurrence holds the initial value forever. -/
theorem smoothing_spec (k raw s0 : ℚ) (h0 : 0 ≤ k) (h1 : k ≤ 1) :
    (∀ n, |smoothIter k raw s0 (n+1) - raw| ≤ |smoothIter k raw s0 n - raw|)
    ∧ (s0 ≤ raw → ∀ n, smoothIter k raw s0 n ≤ smoothIter k raw s0 (n+1)
        ∧ smoothIter k raw s0 n ≤ raw)
    ∧ (raw ≤ s0 → ∀ n, smoothIter k raw s0 (n+1) ≤ smoothIter k raw s0 n
        ∧ raw ≤ smoothIter k raw s0 n)
    ∧ (k < 1 → ∀ ε : ℚ, 0 < ε → ∃ N, ∀ n, N ≤ n →
        |smoothIter k raw s0 n - raw| ≤ ε) := by
  have key := smoothIter_sub k raw s0
  refine ⟨?_, ?_, ?_, ?_⟩
  · intro n
    rw [key (n+1), key n, pow_succ, mul_comm (k ^ n) k, mul_assoc, abs_mul,
      abs_of_nonneg h0]
    exact mul_le_of_le_one_left (abs_nonneg _) h1
  · intro hs n
    have hkn : 0 ≤ k ^ n := pow_nonneg h0 n
    have e1 := key n
    have e2 := key (n + 1)
    rw [pow_succ] at e2
    have hb : 0 ≤ raw - s0 := sub_nonneg.mpr hs
    have hc : 0 ≤ 1 - k := sub_nonneg.mpr h1
    constructor
    · nlinarith [mul_nonneg (mul_nonneg hkn hb) hc]
    · nlinarith [mul_nonneg hkn hb]
  · intro hs n
    have hkn : 0 ≤ k ^ n := pow_nonneg h0 n
    have e1 := key n
    have e2 := key (n + 1)
    rw [pow_succ] at e2
    have hb : 0 ≤ s0 - raw := sub_nonneg.mpr hs
    have hc : 0 ≤ 1 - k := sub_nonneg.mpr h1
    constructor
    · nlinarith [mul_nonneg (mul_nonneg hkn hb) hc]
    · nlinarith [mul_nonneg hkn hb]
  · intro hk1 ε hε
    rcases eq_or_ne s0 raw with hEq | hNe
    · refine ⟨0, fun n _ => ?_⟩
      rw [key n, hEq]
      simp [le_of_lt hε]
    · have hC : 0 < |s0 - raw| := abs_pos.mpr (sub_ne_zero.mpr hNe)
      obtain ⟨N, hN⟩ := exists_pow_lt_of_lt_one (div_pos hε hC) hk1
      refine ⟨N, fun n hn => ?_⟩
      rw [key n, abs_mul, abs_of_nonneg (pow_nonneg h0 n)]
      have h2 : k ^ n ≤ k ^ N := pow_le_pow_of_le_one h0 h1 hn
      have h3 : k ^ N * |s0 - raw| < ε / |s0 - raw| * |s0 - raw| :=
        mul_lt_mul_of_pos_right hN hC
      rw [div_mul_cancel₀ _ (ne_of_gt hC)] at h3
      have h4 : k ^ n * |s0 - raw| ≤ k ^ N * |s0 - raw| :=
        mul_le_mul_of_nonneg_right h2 (abs_nonneg _)
      linarith

/-- Witness for `smoothing_spec` at `k = 1/2`, raw input 1, start 0. -/
theorem smoothing_spec_witness :
    (0 : ℚ) ≤ 1/2 ∧ (1/2 : ℚ) ≤ 1
    ∧ |smoothIter (1/2) 1 0 (0+1) - 1| ≤ |smoothIter (1/2) 1 0 0 - 1| :=
  ⟨by norm_num, by norm_num,
    (smoothing_spec (1/2) 1 0 (by norm_num) (by norm_num)).1 0⟩

/-- C5 counterexample: at the admissible smoothing factor `k = 1`
(`setSmoothingFactor` accepts it unchanged) the smoothed value stays at its
initial value forever, so it does not converge to the raw value. -/
theorem smoothing_cex :
    setSmoothingFactor 1 = 1
    ∧ |smoothIter 1 1 0 5 - 1| = 1
    ∧ ¬ (∀ ε : ℚ, 0 < ε → ∃ N, ∀ n, N ≤ n →
        |smoothIter 1 1 0 n - 1| ≤ ε) := by
  refine ⟨by norm_num [setSmoothingFactor], ?_, ?_⟩
  · rw [smoothIter_k_one 1 0 5]
    norm_num
  · intro h
    obtain ⟨N, hN⟩ := h (1/2) (by norm_num)
    have h2 := hN N le_rfl
    rw [smoothIter_k_one 1 0 N] at h2
    norm_num at h2

lemma beatCore_fst (s : BeatState) (e now : ℚ) :
    (beatCore s e now).1 = true ↔
      (e > histMean (pushEnergy s e) * s.beatThreshold
        ∧ now - s.lastBeatTime > s.beatCooldown) := by
  by_cases h : (e > histMean (pushEnergy s e) * s.beatThreshold
      ∧ now - s.lastBeatTime > s.beatCooldown)
  · simp [beatCore, h]
  · simp [beatCore, h]

lemma beatCore_lastBeat (s : BeatState) (e now : ℚ) :
    (beatCore s e now).2.lastBeatTime =
      if (beatCore s e now).1 = true then now else s.lastBeatTime := by
  by_cases h : (e > histMean (pushEnergy s e) * s.beatThreshold
      ∧ now - s.lastBeatTime > s.beatCooldown)
  · simp [beatCore, h]
  · simp [beatCore, h]

lemma beatCore_refractory (s : BeatState) (e now e₂ now₂ : ℚ)
    (hb : (beatCore s e now).1 = true) (hc : now₂ - now ≤ s.beatCooldown) :
    (beatCore (beatCore s e now).2 e₂ now₂).1 = false := by
  by_cases h : (e > histMean (pushEnergy s e) * s.beatThreshold
      ∧ now - s.lastBeatTime > s.beatCooldown)
  · have hlast : (beatCore s e now).2.lastBeatTime = now := by
      simp [beatCore, h]
    have hcool : (beatCore s e now).2.beatCooldown = s.beatCooldown := by
      simp [beatCore, h]
    set s' := (beatCore s e now).2 with hs'
    by_cases h2 : (e₂ > histMean (pushEnergy s' e₂) * s'.beatThreshold
        ∧ now₂ - s'.lastBeatTime > s'.beatCooldown)
    · exfalso
      have h3 := h2.2
      rw [hlast, hcool] at h3
      linarith
    · simp [beatCore, h2]
  · exfalso
    simp [beatCore, h] at hb

/-- C1 (amended): `getBeatDetected` returns `true` exactly when the current
bass/low-mid energy exceeds the mean of the (just-updated, current-sample
inclusive) bounded energy window times the threshold AND strictly more than
`beatCooldown` milliseconds have elapsed since the previous beat; on a beat
the last-beat timestamp becomes `now`, so no second beat can fire while at
most `beatCooldown` milliseconds have passed. -/
theorem getBeatDetected_spec :
    (∀ (s : Analyzer) (live : List ℕ) (now : ℚ),
      ((getBeatDetected s live now).1 = true ↔
        (beatEnergy (getFrequencyData s live) >
            histMean (pushEnergy s.beat (beatEnergy (getFrequencyData s live)))
              * s.beat.beatThreshold
          ∧ now - s.beat.lastBeatTime > s.beat.beatCooldown)))
    ∧ (∀ (s : Analyzer) (live : List ℕ) (now : ℚ),
        (getBeatDetected s live now).2.beat.lastBeatTime =
          if (getBeatDetected s live now).1 = true then now
          else s.beat.lastBeatTime)
    ∧ (∀ (s : Analyzer) (live live₂ : List ℕ) (now now₂ : ℚ),
        (getBeatDetected s live now).1 = true →
        now₂ - now ≤ s.beat.beatCooldown →
        (getBeatDetected (getBeatDetected s live now).2 live₂ now₂).1
          = false) := by
  refine ⟨?_, ?_, ?_⟩
  · intro s live now
    exact beatCore_fst s.beat (beatEnergy (getFrequencyData s live)) now
  · intro s live now
    exact beatCore_lastBeat s.beat (beatEnergy (getFrequencyData s live)) now
  · intro s live live₂ now now₂ hb hc
    exact beatCore_refractory s.beat (beatEnergy (getFrequencyData s live))
      now _ now₂ hb hc

lemma beatEnergy_spike : beatEnergy (getFrequencyData analyzerA liveSpike) = 1 := by
  have h510 : rangeSum liveSpike 0 2 = 510 := by decide
  norm_num [beatEnergy, getFrequencyData, analyzerA, rangeEnergy, h510]

lemma pushEnergy_warm : pushEnergy beatWarm 1 = List.replicate 42 0 ++ [1] := by
  have h43 : List.replicate 43 (0:ℚ) = 0 :: List.replicate 42 0 := rfl
  simp [pushEnergy, beatWarm, h43]

lemma histMean_warm : histMean (List.replicate 42 (0:ℚ) ++ [1]) = 1/43 := by
  simp [histMean, List.sum_replicate]

lemma warm_energy_exceeds :
    (1:ℚ) > histMean (pushEnergy analyzerA.beat 1) * analyzerA.beat.beatThreshold := by
  show (1:ℚ) > histMean (pushEnergy beatWarm 1) * beatWarm.beatThreshold
  rw [pushEnergy_warm, histMean_warm]
  norm_num [beatWarm]

/-- Witness for `getBeatDetected_spec`: a saturated spike on a quiet warmed-up
window fires a beat at 1000 ms, and an equal spike 50 ms later (within the
100 ms cooldown) does not. -/
theorem getBeatDetected_spec_witness :
    (getBeatDetected analyzerA liveSpike 1000).1 = true
    ∧ (1050 : ℚ) - 1000 ≤ analyzerA.beat.beatCooldown
    ∧ (getBeatDetected (getBeatDetected analyzerA liveSpike 1000).2
        liveSpike 1050).1 = false := by
  have h1 : (getBeatDetected analyzerA liveSpike 1000).1 = true := by
    show (beatCore analyzerA.beat
      (beatEnergy (getFrequencyData analyzerA liveSpike)) 1000).1 = true
    rw [beatEnergy_spike]
    have hcond : (1:ℚ) > histMean (pushEnergy analyzerA.beat 1)
          * analyzerA.beat.beatThreshold
        ∧ (1000:ℚ) - analyzerA.beat.lastBeatTime > analyzerA.beat.beatCooldown := by
      refine ⟨warm_energy_exceeds, ?_⟩
      show (1000:ℚ) - beatWarm.lastBeatTime > beatWarm.beatCooldown
      norm_num [beatWarm]
    simp [beatCore, hcond]
  have h2 : (1050 : ℚ) - 1000 ≤ analyzerA.beat.beatCooldown := by
    show (1050 : ℚ) - 1000 ≤ beatWarm.beatCooldown
    norm_num [beatWarm]
  exact ⟨h1, h2,
    getBeatDetected_spec.2.2 analyzerA liveSpike liveSpike 1000 1050 h1 h2⟩

/-- C1 counterexample: with energy far above `mean * threshold` and exactly
`beatCooldown` (100 ms) elapsed since the previous beat, the source condition
`timeSinceLastBeat > beatCooldown` is strict, so no beat fires although the
claim's "at least the cooldown has elapsed" is satisfied. -/
theorem getBeatDetected_cex :
    (getBeatDetected analyzerA liveSpike 100).1 = false
    ∧ beatEnergy (getFrequencyData analyzerA liveSpike) >
        histMean (pushEnergy analyzerA.beat
          (beatEnergy (getFrequencyData analyzerA liveSpike)))
          * analyzerA.beat.beatThreshold
    ∧ (100 : ℚ) - analyzerA.beat.lastBeatTime ≥ analyzerA.beat.beatCooldown := by
  refine ⟨?_, ?_, ?_⟩
  · show (beatCore analyzerA.beat
      (beatEnergy (getFrequencyData analyzerA liveSpike)) 100).1 = false
    rw [beatEnergy_spike]
    have hnot : ¬ ((1:ℚ) > histMean (pushEnergy analyzerA.beat 1)
          * analyzerA.beat.beatThreshold
        ∧ (100:ℚ) - analyzerA.beat.lastBeatTime > analyzerA.beat.beatCooldown) := by
      rintro ⟨-, hgt⟩
      have e1 : analyzerA.beat.lastBeatTime = 0 := rfl
      have e2 : analyzerA.beat.beatCooldown = 100 := rfl
      rw [e1, e2] at hgt
      linarith
    simp [beatCore, hnot]
  · rw [beatEnergy_spike]
    exact warm_energy_exceeds
  · show (100:ℚ) - beatWarm.lastBeatTime ≥ beatWarm.beatCooldown
    norm_num [beatWarm]

lemma motionPixelStep_decay (thr : ℕ) (td : ℚ) (heat diff : ℕ)
    (hd : diff ≤ thr) :
    motionPixelStep thr td heat diff = (⌊(heat : ℚ) * td⌋).toNat := by
  unfold motionPixelStep
  rw [if_neg (Nat.not_lt.mpr hd)]

lemma motionPixelStep_le (thr : ℕ) (td : ℚ) (heat diff : ℕ)
    (h1 : td < 1) (hd : diff ≤ thr) :
    motionPixelStep thr td heat diff ≤ heat := by
  rw [motionPixelStep_decay thr td heat diff hd]
  have hq : (heat : ℚ) * td ≤ (heat : ℚ) := by
    rcases le_or_lt td 0 with h | h
    · have : (heat : ℚ) * td ≤ 0 := mul_nonpos_of_nonneg_of_nonpos (by positivity) h
      have h0 : (0:ℚ) ≤ (heat : ℚ) := by positivity
      linarith
    · nlinarith [Nat.cast_nonneg (α := ℚ) heat]
  have hfl : ⌊(heat : ℚ) * td⌋ ≤ (heat : ℤ) := by
    calc ⌊(heat : ℚ) * td⌋ ≤ ⌊((heat : ℕ) : ℚ)⌋ := Int.floor_le_floor hq
    _ = (heat : ℤ) := Int.floor_natCast heat
  omega

lemma motionPixelStep_lt (thr : ℕ) (td : ℚ) (heat diff : ℕ)
    (h1 : td < 1) (hd : diff ≤ thr) (hpos : 1 ≤ heat) :
    motionPixelStep thr td heat diff < heat := by
  rw [motionPixelStep_decay thr td heat diff hd]
  have hq : (heat : ℚ) * td < (heat : ℚ) := by
    have hh : (0:ℚ) < (heat : ℚ) := by exact_mod_cast hpos
    nlinarith
  have hfl : ⌊(heat : ℚ) * td⌋ < (heat : ℤ) := by
    rw [Int.floor_lt]
    push_cast
    exact hq
  omega

lemma decayIter_zero (td : ℚ) (h1 : td < 1) :
    ∀ n heat, heat ≤ n → decayIter td heat n = 0 := by
  intro n
  induction n with
  | zero =>
    intro heat h
    have : heat = 0 := Nat.le_zero.mp h
    subst this
    rfl
  | succ n ih =>
    intro heat h
    show decayIter td (motionPixelStep 15 td heat 0) n = 0
    rcases Nat.eq_zero_or_pos heat with h0 | hpos
    · subst h0
      apply ih
      have := motionPixelStep_le 15 td 0 0 h1 (by omega)
      omega
    · have := motionPixelStep_lt 15 td heat 0 h1 (by omega) hpos
      apply ih
      omega

/-- C4 (amended): an undisturbed hot pixel (luminance difference at most
`motionThreshold`) has its heat updated to `Math.floor(heat * trailDecay)`
each `analyzeFrame` tick — the floor of, not exactly, the multiplicative
decay. The heat never increases while undisturbed, hence stays in `[0,255]`,
and it reaches exactly zero after at most `heat` ticks (strictly decreasing
while positive). -/
theorem motion_heat_spec (thr : ℕ) (td : ℚ) (heat diff : ℕ)
    (h1 : td < 1) (hd : diff ≤ thr) :
    motionPixelStep thr td heat diff = (⌊(heat : ℚ) * td⌋).toNat
    ∧ motionPixelStep thr td heat diff ≤ heat
    ∧ (heat ≤ 255 → motionPixelStep thr td heat diff ≤ 255)
    ∧ (1 ≤ heat → motionPixelStep thr td heat diff < heat)
    ∧ decayIter td heat heat = 0 := by
  refine ⟨motionPixelStep_decay thr td heat diff hd,
    motionPixelStep_le thr td heat diff h1 hd, ?_,
    fun hpos => motionPixelStep_lt thr td heat diff h1 hd hpos,
    decayIter_zero td h1 heat heat le_rfl⟩
  intro h255
  have := motionPixelStep_le thr td heat diff h1 hd
  omega

/-- Witness for `motion_heat_spec` at the default threshold 15 and decay
factor 0.92, heat 10, no motion. -/
theorem motion_heat_spec_witness :
    (92/100 : ℚ) < 1 ∧ (0:ℕ) ≤ 15
    ∧ motionPixelStep 15 (92/100) 10 0 = (⌊(10 : ℚ) * (92/100)⌋).toNat
    ∧ decayIter (92/100) 10 10 = 0 := by
  have h := motion_heat_spec 15 (92/100) 10 0 (by norm_num) (by omega)
  exact ⟨by norm_num, by omega, h.1, h.2.2.2.2⟩

/-- C4 counterexample: a hot pixel with heat 10 and no further motion decays
to `Math.floor(10 * 0.92) = 9`, not to `10 * 0.92 = 9.2` — the decay is not
exactly the factor `trailDecay` because the byte buffer stores the floored
value. -/
theorem motion_heat_cex :
    motionPixelStep 15 (92/100) 10 0 = 9
    ∧ ((motionPixelStep 15 (92/100) 10 0 : ℚ) ≠ (10 : ℚ) * (92/100)) := by
  have h9 : motionPixelStep 15 (92/100) 10 0 = 9 := by
    rw [motionPixelStep_decay 15 (92/100) 10 0 (by omega)]
    norm_num
    decide
  refine ⟨h9, ?_⟩
  rw [h9]
  norm_num

/-- C6: every feature getter of an `AudioAnalyzer` that was constructed but
never initialized throws a `TypeError` (dereferencing the null
`frequencyBinMap` or `frequencyData`) instead of returning the zero/false
hold-value; only the raw-buffer getter `getFrequencyData` returns zeros. -/
theorem uninit_getters_throw :
    rawGetBass rawUninit [] = Except.error "TypeError"
    ∧ rawGetMid rawUninit [] = Except.error "TypeError"
    ∧ rawGetTreble rawUninit [] = Except.error "TypeError"
    ∧ rawGetAverageFrequency rawUninit [] = Except.error "TypeError"
    ∧ rawGetBeatDetected rawUninit [] = Except.error "TypeError"
    ∧ rawGetSpectrum rawUninit [] 32 = Except.error "TypeError"
    ∧ (rawGetFrequencyData rawUninit []).1 = List.replicate 1024 0 :=
  ⟨rfl, rfl, rfl, rfl, rfl, rfl, rfl⟩

/-- C8: confetti flatness is `|cos pitch|`; at `pitch = 0` flatness is 1,
giving the maximal drag coefficient `BASE_DRAG * dragCoeff * 7` and gravity
reduced by 60% to `GRAVITY * 0.4`; at `pitch = π/2` flatness is 0, giving
the minimal drag coefficient `BASE_DRAG * dragCoeff * 0.8` and the full
gravity `GRAVITY = 1.2`; drag is affine (linear interpolation) in flatness
between these endpoints. -/
theorem confetti_flatness_spec (c : ℝ) :
    flatness 0 = 1
    ∧ effectiveDrag c (flatness 0) = BASE_DRAG * c * 7
    ∧ effectiveGravity (flatness 0) = GRAVITY * (4/10)
    ∧ flatness (Real.pi / 2) = 0
    ∧ effectiveDrag c (flatness (Real.pi / 2)) = BASE_DRAG * c * (8/10)
    ∧ effectiveGravity (flatness (Real.pi / 2)) = GRAVITY
    ∧ GRAVITY = 12/10
    ∧ (∀ fl : ℝ, effectiveDrag c fl
        = (1 - fl) * effectiveDrag c 0 + fl * effectiveDrag c 1) := by
  have h0 : flatness 0 = 1 := by
    simp [flatness]
  have hpi : flatness (Real.pi / 2) = 0 := by
    simp [flatness, Real.cos_pi_div_two]
  refine ⟨h0, ?_, ?_, hpi, ?_, ?_, ?_, ?_⟩
  · rw [h0]
    unfold effectiveDrag FLAT_DRAG_MULT EDGE_DRAG_MULT
    norm_num
  · rw [h0]
    unfold effectiveGravity liftFactor
    norm_num
  · rw [hpi]
    unfold effectiveDrag FLAT_DRAG_MULT EDGE_DRAG_MULT
    norm_num
  · rw [hpi]
    unfold effectiveGravity liftFactor
    norm_num
  · unfold GRAVITY
    norm_num
  · intro fl
    unfold effectiveDrag
    ring

/-- C9 (amended): the `spectrum` field of the `AudioFrame` returned by
`getAudioData` is the raw byte frequency snapshot — an ordered sequence of
samples each in `[0,255]`, not normalized to `[0,1]`. -/
theorem audioframe_spectrum_spec (s : Analyzer) (live : List ℕ) (now : ℚ)
    (h : ∀ v ∈ live, v ≤ 255) :
    (getAudioData s live now).1.spectrum = live
    ∧ ∀ v ∈ (getAudioData s live now).1.spectrum, v ≤ 255 := by
  have hs : (getAudioData s live now).1.spectrum = live := rfl
  exact ⟨hs, by rw [hs]; exact h⟩

/-- Witness for `audioframe_spectrum_spec` on the concrete analyzer and
snapshot. -/
theorem audioframe_spectrum_spec_witness :
    (getAudioData analyzerA liveSpike 0).1.spectrum = liveSpike :=
  (audioframe_spectrum_spec analyzerA liveSpike 0 (by decide)).1

/-- C9 counterexample: the frame built from a saturated snapshot carries the
raw byte value 255 in its `spectrum`, which does not lie in `[0,1]`. -/
theorem audioframe_spectrum_cex :
    (getAudioData analyzerA liveSpike 0).1.spectrum = liveSpike
    ∧ (255 : ℕ) ∈ (getAudioData analyzerA liveSpike 0).1.spectrum
    ∧ ¬ ((255 : ℚ) ≤ 1) :=
  ⟨rfl, by decide, by norm_num⟩

lemma findSome?_eq_none_of {α β : Type} (f : α → Option β) :
    ∀ l : List α, (∀ a ∈ l, f a = none) → l.findSome? f = none := by
  intro l
  induction l with
  | nil => intro _; rfl
  | cons a l ih =>
    intro h
    have ha : f a = none := h a (List.mem_cons_self a l)
    simp only [List.findSome?_cons, ha]
    exact ih fun b hb => h b (List.mem_cons_of_mem a hb)

lemma poolFindInactive_none {α : Type} (isA : α → Bool) (d : α)
    (pool : List α) (n cursor : ℕ) (hlen : pool.length = n)
    (hall : ∀ p ∈ pool, isA p = true) :
    poolFindInactive isA d pool n cursor = none := by
  unfold poolFindInactive
  apply findSome?_eq_none_of
  intro i hi
  have hi' : i < n := List.mem_range.mp hi
  have hn : 0 < n := by omega
  have hidx : (cursor + i) % n < pool.length := by
    rw [hlen]
    exact Nat.mod_lt _ hn
  have hmem : pool.getD ((cursor + i) % n) d ∈ pool := by
    rw [List.getD_eq_getElem _ _ hidx]
    exact List.getElem_mem _
  simpa using hall _ hmem

lemma length_filterMap_guard {α β : Type} (isA : α → Bool) (f : α → β) :
    ∀ l : List α,
      (l.filterMap fun p => if isA p then some (f p) else none).length
        = countActive isA l := by
  intro l
  induction l with
  | nil => rfl
  | cons a l ih =>
    by_cases h : isA a
    · simp [List.filterMap_cons, List.filter_cons, countActive, h]
      simpa [countActive] using ih
    · simp [List.filterMap_cons, List.filter_cons, countActive, h]
      simpa [countActive] using ih

/-- C3: for each of the three particle systems, after `update` completes the
stored `activeCount` equals the number of pool particles with
`active = true`, and the draw range set by `updateBuffers` (the number of
packed render-buffer entries) equals that `activeCount` — for every state,
time step, spawn batch, and (for confetti) any physics outcome. -/
theorem pool_count_spec :
    (∀ (s : ConfettiSystem) (dt : ℚ) (inits : List ConfettiParticle)
        (phys : ConfettiParticle → ConfettiParticle),
      (confettiUpdate s dt inits phys).activeCount
        = countActive (fun p => p.active)
            (confettiUpdate s dt inits phys).particles
      ∧ (confettiUpdateBuffers (confettiUpdate s dt inits phys)).2
          = (confettiUpdate s dt inits phys).activeCount)
    ∧ (∀ (s : SparkSystem) (dt : ℚ),
      (sparkUpdate s dt).activeCount
        = countActive (fun p => p.active) (sparkUpdate s dt).particles
      ∧ (sparkUpdateBuffers (sparkUpdate s dt)).2
          = (sparkUpdate s dt).activeCount)
    ∧ (∀ (s : BubbleSystem) (dt : ℚ) (inits : List BubbleParticle)
        (motion : Option (List ℕ)) (w h : ℕ) (rand : ℕ → ℚ),
      (bubbleUpdate s dt inits motion w h rand).activeCount
        = countActive (fun p => p.active)
            (bubbleUpdate s dt inits motion w h rand).particles
      ∧ (bubbleUpdateBuffers (bubbleUpdate s dt inits motion w h rand)).2
          = (bubbleUpdate s dt inits motion w h rand).activeCount) := by
  refine ⟨?_, ?_, ?_⟩
  · intro s dt inits phys
    exact ⟨rfl, length_filterMap_guard _ _ _⟩
  · intro s dt
    exact ⟨rfl, length_filterMap_guard _ _ _⟩
  · intro s dt inits motion w h rand
    exact ⟨rfl, length_filterMap_guard _ _ _⟩

lemma confettiSpawnOne_dims (s : ConfettiSystem) (i : ConfettiParticle) :
    (confettiSpawnOne s i).particles.length = s.particles.length
    ∧ (confettiSpawnOne s i).maxParticles = s.maxParticles := by
  rcases h : s.findInactive with _ | idx <;>
    simp [confettiSpawnOne, h, List.length_set]

lemma confettiSpawnMany_dims :
    ∀ (inits : List ConfettiParticle) (s : ConfettiSystem),
      (confettiSpawnMany s inits).particles.length = s.particles.length
      ∧ (confettiSpawnMany s inits).maxParticles = s.maxParticles := by
  intro inits
  induction inits with
  | nil => intro s; exact ⟨rfl, rfl⟩
  | cons i rest ih =>
    intro s
    have h1 := confettiSpawnOne_dims s i
    have h2 := ih (confettiSpawnOne s i)
    exact ⟨h2.1.trans h1.1, h2.2.trans h1.2⟩

lemma confettiUpdate_dims (s : ConfettiSystem) (dt : ℚ)
    (inits : List ConfettiParticle) (phys : ConfettiParticle → ConfettiParticle) :
    (confettiUpdate s dt inits phys).particles.length = s.particles.length
    ∧ (confettiUpdate s dt inits phys).maxParticles = s.maxParticles := by
  have h := confettiSpawnMany_dims inits { s with time := s.time + dt }
  simp only [confettiUpdate, List.length_map]
  exact ⟨h.1, h.2⟩

lemma confettiClear_dims (s : ConfettiSystem) :
    (confettiClear s).particles.length = s.particles.length
    ∧ (confettiClear s).maxParticles = s.maxParticles := by
  simp [confettiClear]

lemma confettiApply_inv (s : ConfettiSystem) (op : ConfettiOp)
    (h : s.particles.length = s.maxParticles) :
    (confettiApply s op).particles.length = (confettiApply s op).maxParticles := by
  cases op with
  | spawn inits =>
    have d := confettiSpawnMany_dims inits s
    show (confettiSpawnMany s inits).particles.length
      = (confettiSpawnMany s inits).maxParticles
    rw [d.1, d.2]
    exact h
  | update dt inits phys =>
    have d := confettiUpdate_dims s dt inits phys
    show (confettiUpdate s dt inits phys).particles.length
      = (confettiUpdate s dt inits phys).maxParticles
    rw [d.1, d.2]
    exact h
  | clear =>
    have d := confettiClear_dims s
    show (confettiClear s).particles.length = (confettiClear s).maxParticles
    rw [d.1, d.2]
    exact h

lemma confettiRun_inv :
    ∀ (ops : List ConfettiOp) (s : ConfettiSystem),
      s.particles.length = s.maxParticles →
      (confettiRun s ops).particles.length = (confettiRun s ops).maxParticles := by
  intro ops
  induction ops with
  | nil => intro s h; exact h
  | cons op rest ih =>
    intro s h
    exact ih (confettiApply s op) (confettiApply_inv s op h)

lemma sparkSpawnOne_dims (s : SparkSystem) (i : SparkParticle)
    (s' : SparkSystem) (h : sparkSpawnOne s i = some s') :
    s'.particles.length = s.particles.length
    ∧ s'.maxParticles = s.maxParticles := by
  unfold sparkSpawnOne at h
  split at h
  · simp at h
  · injection h with h2
    subst h2
    exact ⟨List.length_set _ _ _, rfl⟩

lemma sparkSpawnFromMotion_dims :
    ∀ (inits : List SparkParticle) (s : SparkSystem),
      (sparkSpawnFromMotion s inits).particles.length = s.particles.length
      ∧ (sparkSpawnFromMotion s inits).maxParticles = s.maxParticles := by
  intro inits
  induction inits with
  | nil => intro s; exact ⟨rfl, rfl⟩
  | cons i rest ih =>
    intro s
    show (match sparkSpawnOne s i with
        | none => s
        | some s' => sparkSpawnFromMotion s' rest).particles.length
          = s.particles.length
      ∧ (match sparkSpawnOne s i with
        | none => s
        | some s' => sparkSpawnFromMotion s' rest).maxParticles
          = s.maxParticles
    cases h : sparkSpawnOne s i with
    | none => exact ⟨rfl, rfl⟩
    | some s' =>
      have hs' := sparkSpawnOne_dims s i s' h
      exact ⟨(ih s').1.trans hs'.1, (ih s').2.trans hs'.2⟩

lemma sparkUpdate_dims (s : SparkSystem) (dt : ℚ) :
    (sparkUpdate s dt).particles.length = s.particles.length
    ∧ (sparkUpdate s dt).maxParticles = s.maxParticles := by
  simp [sparkUpdate]

lemma sparkClear_dims (s : SparkSystem) :
    (sparkClear s).particles.length = s.particles.length
    ∧ (sparkClear s).maxParticles = s.maxParticles := by
  simp [sparkClear]

lemma setMaxParticles_inv (s : SparkSystem) (m : ℚ)
    (h : s.particles.length = s.maxParticles) :
    (setMaxParticles s m).particles.length = (setMaxParticles s m).maxParticles := by
  unfold setMaxParticles
  by_cases hc : clampMaxParticles m = s.maxParticles
  · simpa [hc] using h
  · simp [hc]

lemma sparkApply_inv (s : SparkSystem) (op : SparkOp)
    (h : s.particles.length = s.maxParticles) :
    (sparkApply s op).particles.length = (sparkApply s op).maxParticles := by
  cases op with
  | spawn inits =>
    have d := sparkSpawnFromMotion_dims inits s
    show (sparkSpawnFromMotion s inits).particles.length
      = (sparkSpawnFromMotion s inits).maxParticles
    rw [d.1, d.2]
    exact h
  | update dt =>
    have d := sparkUpdate_dims s dt
    show (sparkUpdate s dt).particles.length = (sparkUpdate s dt).maxParticles
    rw [d.1, d.2]
    exact h
  | clear =>
    have d := sparkClear_dims s
    show (sparkClear s).particles.length = (sparkClear s).maxParticles
    rw [d.1, d.2]
    exact h
  | resize m => exact setMaxParticles_inv s m h

lemma sparkRun_inv :
    ∀ (ops : List SparkOp) (s : SparkSystem),
      s.particles.length = s.maxParticles →
      (sparkRun s ops).particles.length = (sparkRun s ops).maxParticles := by
  intro ops
  induction ops with
  | nil => intro s h; exact h
  | cons op rest ih =>
    intro s h
    exact ih (sparkApply s op) (sparkApply_inv s op h)

lemma bubbleSpawnOne_dims (s : BubbleSystem) (i : BubbleParticle) :
    (bubbleSpawnOne s i).particles.length = s.particles.length
    ∧ (bubbleSpawnOne s i).maxParticles = s.maxParticles := by
  rcases h : s.findInactive with _ | idx <;>
    simp [bubbleSpawnOne, h, List.length_set]

lemma bubbleSpawnMany_dims :
    ∀ (inits : List BubbleParticle) (s : BubbleSystem),
      (bubbleSpawnMany s inits).particles.length = s.particles.length
      ∧ (bubbleSpawnMany s inits).maxParticles = s.maxParticles := by
  intro inits
  induction inits with
  | nil => intro s; exact ⟨rfl, rfl⟩
  | cons i rest ih =>
    intro s
    have h1 := bubbleSpawnOne_dims s i
    have h2 := ih (bubbleSpawnOne s i)
    exact ⟨h2.1.trans h1.1, h2.2.trans h1.2⟩

lemma bubbleUpdate_dims (s : BubbleSystem) (dt : ℚ)
    (inits : List BubbleParticle) (motion : Option (List ℕ)) (w h : ℕ)
    (rand : ℕ → ℚ) :
    (bubbleUpdate s dt inits motion w h rand).particles.length
      = s.particles.length
    ∧ (bubbleUpdate s dt inits motion w h rand).maxParticles
      = s.maxParticles := by
  have hd := bubbleSpawnMany_dims inits s
  simp only [bubbleUpdate, List.length_map, List.enum_length]
  exact ⟨hd.1, hd.2⟩

lemma bubbleClear_dims (s : BubbleSystem) :
    (bubbleClear s).particles.length = s.particles.length
    ∧ (bubbleClear s).maxParticles = s.maxParticles := by
  simp [bubbleClear]

lemma bubbleApply_inv (s : BubbleSystem) (op : BubbleOp)
    (h : s.particles.length = s.maxParticles) :
    (bubbleApply s op).particles.length = (bubbleApply s op).maxParticles := by
  cases op with
  | spawn inits =>
    have d := bubbleSpawnMany_dims inits s
    show (bubbleSpawnMany s inits).particles.length
      = (bubbleSpawnMany s inits).maxParticles
    rw [d.1, d.2]
    exact h
  | update dt inits motion w hh rand =>
    have d := bubbleUpdate_dims s dt inits motion w hh rand
    show (bubbleUpdate s dt inits motion w hh rand).particles.length
      = (bubbleUpdate s dt inits motion w hh rand).maxParticles
    rw [d.1, d.2]
    exact h
  | clear =>
    have d := bubbleClear_dims s
    show (bubbleClear s).particles.length = (bubbleClear s).maxParticles
    rw [d.1, d.2]
    exact h

lemma bubbleRun_inv :
    ∀ (ops : List BubbleOp) (s : BubbleSystem),
      s.particles.length = s.maxParticles →
      (bubbleRun s ops).particles.length = (bubbleRun s ops).maxParticles := by
  intro ops
  induction ops with
  | nil => intro s h; exact h
  | cons op rest ih =>
    intro s h
    exact ih (bubbleApply s op) (bubbleApply_inv s op h)

/-- C10: for each of the three particle systems, when every slot of the pool
is active, `findInactiveParticle` returns null and every spawn entry point
leaves the system unchanged; and from any state whose pool fills its
capacity (as every constructed system's does), after any sequence of spawn,
update, clear (and, for sparks, `setMaxParticles`) operations the number of
active particles never exceeds the capacity `maxParticles`. -/
theorem pool_full_spec :
    (∀ s : ConfettiSystem, s.particles.length = s.maxParticles →
      (∀ p ∈ s.particles, p.active = true) →
      s.findInactive = none ∧ (∀ inits, confettiSpawnMany s inits = s))
    ∧ (∀ (s : ConfettiSystem) (ops : List ConfettiOp),
        s.particles.length = s.maxParticles →
        countActive (fun p => p.active) (confettiRun s ops).particles
          ≤ (confettiRun s ops).maxParticles)
    ∧ (∀ s : SparkSystem, s.particles.length = s.maxParticles →
      (∀ p ∈ s.particles, p.active = true) →
      s.findInactive = none ∧ (∀ inits, sparkSpawnFromMotion s inits = s))
    ∧ (∀ (s : SparkSystem) (ops : List SparkOp),
        s.particles.length = s.maxParticles →
        countActive (fun p => p.active) (sparkRun s ops).particles
          ≤ (sparkRun s ops).maxParticles)
    ∧ (∀ s : BubbleSystem, s.particles.length = s.maxParticles →
      (∀ p ∈ s.particles, p.active = true) →
      s.findInactive = none ∧ (∀ inits, bubbleSpawnMany s inits = s))
    ∧ (∀ (s : BubbleSystem) (ops : List BubbleOp),
        s.particles.length = s.maxParticles →
        countActive (fun p => p.active) (bubbleRun s ops).particles
          ≤ (bubbleRun s ops).maxParticles) := by
  refine ⟨?_, ?_, ?_, ?_, ?_, ?_⟩
  · intro s hlen hall
    have hfind : s.findInactive = none :=
      poolFindInactive_none _ _ _ _ _ hlen hall
    refine ⟨hfind, ?_⟩
    intro inits
    induction inits with
    | nil => rfl
    | cons i rest ih =>
      show confettiSpawnMany (confettiSpawnOne s i) rest = s
      rw [show confettiSpawnOne s i = s from by
        simp [confettiSpawnOne, hfind]]
      exact ih
  · intro s ops hlen
    have hinv := confettiRun_inv ops s hlen
    have hle := List.length_filter_le (fun p => p.active)
      (confettiRun s ops).particles
    unfold countActive
    omega
  · intro s hlen hall
    have hfind : s.findInactive = none :=
      poolFindInactive_none _ _ _ _ _ hlen hall
    refine ⟨hfind, ?_⟩
    intro inits
    cases inits with
    | nil => rfl
    | cons i rest =>
      show (match sparkSpawnOne s i with
        | none => s
        | some s' => sparkSpawnFromMotion s' rest) = s
      rw [show sparkSpawnOne s i = none from by
        simp [sparkSpawnOne, hfind]]
  · intro s ops hlen
    have hinv := sparkRun_inv ops s hlen
    have hle := List.length_filter_le (fun p => p.active)
      (sparkRun s ops).particles
    unfold countActive
    omega
  · intro s hlen hall
    have hfind : s.findInactive = none :=
      poolFindInactive_none _ _ _ _ _ hlen hall
    refine ⟨hfind, ?_⟩
    intro inits
    induction inits with
    | nil => rfl
    | cons i rest ih =>
      show bubbleSpawnMany (bubbleSpawnOne s i) rest = s
      rw [show bubbleSpawnOne s i = s from by
        simp [bubbleSpawnOne, hfind]]
      exact ih
  · intro s ops hlen
    have hinv := bubbleRun_inv ops s hlen
    have hle := List.length_filter_le (fun p => p.active)
      (bubbleRun s ops).particles
    unfold countActive
    omega

/-- Witness for `pool_full_spec`: fully-active two-slot pools where the slot
search fails, and a concrete clear-then-bound run for each system. -/
theorem pool_full_spec_witness :
    confettiFullSys.findInactive = none
    ∧ sparkFullSys.findInactive = none
    ∧ bubbleFullSys.findInactive = none
    ∧ countActive (fun p => p.active)
        (confettiRun confettiFullSys [ConfettiOp.clear]).particles
        ≤ (confettiRun confettiFullSys [ConfettiOp.clear]).maxParticles
    ∧ countActive (fun p => p.active)
        (sparkRun sparkFullSys [SparkOp.clear]).particles
        ≤ (sparkRun sparkFullSys [SparkOp.clear]).maxParticles
    ∧ countActive (fun p => p.active)
        (bubbleRun bubbleFullSys [BubbleOp.clear]).particles
        ≤ (bubbleRun bubbleFullSys [BubbleOp.clear]).maxParticles :=
  ⟨(pool_full_spec.1 confettiFullSys (by decide) (by decide)).1,
   (pool_full_spec.2.2.1 sparkFullSys (by decide) (by decide)).1,
   (pool_full_spec.2.2.2.2.1 bubbleFullSys (by decide) (by decide)).1,
   pool_full_spec.2.1 confettiFullSys [ConfettiOp.clear] (by decide),
   pool_full_spec.2.2.2.1 sparkFullSys [SparkOp.clear] (by decide),
   pool_full_spec.2.2.2.2.2 bubbleFullSys [BubbleOp.clear] (by decide)⟩

/-- C7 (amended): `setMaxParticles(n)` clamps the floored capacity to
`[500, 10000]`; if the clamped value equals the current capacity the call is
a no-op, and otherwise it discards the whole pool: the new pool is freshly
allocated all-inactive storage of the new capacity with `activeCount` and the
free-slot cursor reset to 0 — currently active particles are NOT preserved,
whatever their index. -/
theorem setMaxParticles_spec (s : SparkSystem) (m : ℚ) :
    500 ≤ clampMaxParticles m ∧ clampMaxParticles m ≤ 10000
    ∧ (clampMaxParticles m = s.maxParticles → setMaxParticles s m = s)
    ∧ (clampMaxParticles m ≠ s.maxParticles →
        (setMaxParticles s m).maxParticles = clampMaxParticles m
        ∧ (setMaxParticles s m).activeCount = 0
        ∧ (setMaxParticles s m).nextFreeSlot = 0
        ∧ (setMaxParticles s m).particles
            = List.replicate (clampMaxParticles m) SparkParticle.fresh
        ∧ ∀ p ∈ (setMaxParticles s m).particles, p.active = false) := by
  have h5 : (500:ℤ) ≤ max 500 (min 10000 ⌊m⌋) := le_max_left _ _
  have h10 : max 500 (min 10000 ⌊m⌋) ≤ (10000:ℤ) :=
    max_le (by norm_num) (min_le_left _ _)
  refine ⟨?_, ?_, ?_, ?_⟩
  · unfold clampMaxParticles
    omega
  · unfold clampMaxParticles
    omega
  · intro h
    simp [setMaxParticles, h]
  · intro h
    refine ⟨by simp [setMaxParticles, h], by simp [setMaxParticles, h],
      by simp [setMaxParticles, h], by simp [setMaxParticles, h], ?_⟩
    intro p hp
    rw [show (setMaxParticles s m).particles
        = List.replicate (clampMaxParticles m) SparkParticle.fresh from by
      simp [setMaxParticles, h]] at hp
    rw [List.eq_of_mem_replicate hp]
    rfl

/-- Witness for `setMaxParticles_spec`: resizing the 500-capacity system to
600 zeroes the active count. -/
theorem setMaxParticles_spec_witness :
    (setMaxParticles sparkSys500 600).activeCount = 0 := by
  have hne : clampMaxParticles 600 ≠ sparkSys500.maxParticles := by
    unfold clampMaxParticles sparkSys500
    norm_num
    decide
  exact ((setMaxParticles_spec sparkSys500 600).2.2.2 hne).2.1

/-- C7 counterexample: the particle in slot 0 is active before
`setMaxParticles(600)` and slot 0 fits under the new capacity 600, yet after
the call it is inactive — the resize drops all live particles. -/
theorem setMaxParticles_cex :
    (sparkSys500.particles.getD 0 SparkParticle.fresh).active = true
    ∧ clampMaxParticles 600 = 600
    ∧ ((setMaxParticles sparkSys500 600).particles.getD 0
        SparkParticle.fresh).active = false := by
  have hc : clampMaxParticles 600 = 600 := by
    unfold clampMaxParticles
    norm_num
    decide
  have hne : clampMaxParticles 600 ≠ sparkSys500.maxParticles := by
    rw [hc]
    norm_num [sparkSys500]
  refine ⟨rfl, hc, ?_⟩
  have hp : (setMaxParticles sparkSys500 600).particles
      = List.replicate (clampMaxParticles 600) SparkParticle.fresh := by
    simp [setMaxParticles, hne]
  rw [hp, hc]
  rfl

end Visualiser
